import Mathlib

/-!
Verification of the session-context store (cline-mcp-server).

Shallow embedding of the two source files:
  src/cline-mcp-server/src/lib/sessionManager.ts  (SessionManager, key derivation)
  src/cline-mcp-server/src/index.ts                (RPC tool dispatch, RedisClient)

Conventions of the embedding:
* The Redis backend is modelled as a pure key-value map `Store := String → Option String`
  (string keys and values; `none` models a missing key, exactly the `string | null`
  return of `RedisClient.get`).  Connection management and backend I/O failures are
  outside the claims and not modelled.
* Every call of `new Date().toISOString()` inside one registry operation is modelled
  as one explicit `now : String` parameter (an ISO-8601 timestamp is just a string to
  the code; chronological order of equal-length ISO strings is lexicographic order).
* `crypto.randomBytes(16).toString(hex)` in `generateSessionId` is nondeterministic,
  so the generated id is passed as an explicit `sessionId` parameter.
* `JSON.stringify` / `JSON.parse` on `SessionContext` values are embedded as an
  executable serializer producing exactly the JSON text JavaScript would produce for
  this record shape (JS object-key insertion order, JSON string escaping) and a
  matching executable parser; a thrown `SyntaxError` of `JSON.parse` is modelled as
  a parse failure result.
* A thrown JavaScript exception is modelled as an error result that carries the store
  as it was at the moment of the throw (no write after a throw).
* `crypto.createHash(sha256)` is embedded as a full executable SHA-256 over the
  UTF-8 bytes of the input string.
-/

/-! ### SHA-256 (crypto.createHash, sessionManager.ts line 31) -/

/-- Truncation to a 32-bit word. -/
def m32 (x : Nat) : Nat := x % 4294967296

/-- Right rotation of a 32-bit word. -/
def rotWord (x n : Nat) : Nat := m32 ((x >>> n) ||| (x <<< (32 - n)))

/-- SHA-256 Ch function. -/
def shaCh (x y z : Nat) : Nat := (x &&& y) ^^^ ((x ^^^ 4294967295) &&& z)

/-- SHA-256 Maj function. -/
def shaMaj (x y z : Nat) : Nat := (x &&& y) ^^^ (x &&& z) ^^^ (y &&& z)

/-- SHA-256 big sigma 0 (rotations by 2, 13, 22). -/
def sigB0 (x : Nat) : Nat := rotWord x 2 ^^^ rotWord x 13 ^^^ rotWord x 22

/-- SHA-256 big sigma 1 (rotations by 6, 11, 25). -/
def sigB1 (x : Nat) : Nat := rotWord x 6 ^^^ rotWord x 11 ^^^ rotWord x 25

/-- SHA-256 small sigma 0 (rotations by 7, 18 and shift by 3). -/
def sigS0 (x : Nat) : Nat := rotWord x 7 ^^^ rotWord x 18 ^^^ (x >>> 3)

/-- SHA-256 small sigma 1 (rotations by 17, 19 and shift by 10). -/
def sigS1 (x : Nat) : Nat := rotWord x 17 ^^^ rotWord x 19 ^^^ (x >>> 10)

/-- The 64 SHA-256 round constants (FIPS 180-2, written in decimal). -/
def sha256K : List Nat :=
  [1116352408, 1899447441, 3049323471, 3921009573,
   961987163, 1508970993, 2453635748, 2870763221,
   3624381080, 310598401, 607225278, 1426881987,
   1925078388, 2162078206, 2614888103, 3248222580,
   3835390401, 4022224774, 264347078, 604807628,
   770255983, 1249150122, 1555081692, 1996064986,
   2554220882, 2821834349, 2952996808, 3210313671,
   3336571891, 3584528711, 113926993, 338241895,
   666307205, 773529912, 1294757372, 1396182291,
   1695183700, 1986661051, 2177026350, 2456956037,
   2730485921, 2820302411, 3259730800, 3345764771,
   3516065817, 3600352804, 4094571909, 275423344,
   430227734, 506948616, 659060556, 883997877,
   958139571, 1322822218, 1537002063, 1747873779,
   1955562222, 2024104815, 2227730452, 2361852424,
   2428436474, 2756734187, 3204031479, 3329325298]

/-- SHA-256 working state: eight 32-bit words. -/
structure Hash8 where
  a : Nat
  b : Nat
  c : Nat
  d : Nat
  e : Nat
  f : Nat
  g : Nat
  h : Nat
deriving DecidableEq

/-- SHA-256 initial hash value (FIPS 180-2, written in decimal). -/
def initHash : Hash8 :=
  ⟨1779033703, 3144134277, 1013904242, 2773480762,
   1359893119, 2600822924, 528734635, 1541459225⟩

/-- Big-endian 32-bit words from a byte list. -/
def bytesToWords : List Nat → List Nat
  | b0 :: b1 :: b2 :: b3 :: rest => (((b0 * 256 + b1) * 256 + b2) * 256 + b3) :: bytesToWords rest
  | _ => []

/-- One message-schedule extension step: append word `W[n]` computed from the last 16 words. -/
def stepW (w : List Nat) : List Nat :=
  let n := w.length
  w ++ [m32 (sigS1 (w.getD (n - 2) 0) + w.getD (n - 7) 0 + sigS0 (w.getD (n - 15) 0) + w.getD (n - 16) 0)]

/-- Iterate the message-schedule extension `k` times. -/
def buildW : Nat → List Nat → List Nat
  | 0, w => w
  | k + 1, w => buildW k (stepW w)

/-- One SHA-256 compression round, consuming a pair (round constant, schedule word). -/
def roundStep (s : Hash8) (kw : Nat × Nat) : Hash8 :=
  let t1 := m32 (s.h + sigB1 s.e + shaCh s.e s.f s.g + kw.1 + kw.2)
  let t2 := m32 (sigB0 s.a + shaMaj s.a s.b s.c)
  ⟨m32 (t1 + t2), s.a, s.b, s.c, m32 (s.d + t1), s.e, s.f, s.g⟩

/-- SHA-256 compression of one 64-byte block. -/
def compressBlock (hs : Hash8) (block : List Nat) : Hash8 :=
  let w := buildW 48 (bytesToWords block)
  let s := (sha256K.zip w).foldl roundStep hs
  ⟨m32 (hs.a + s.a), m32 (hs.b + s.b), m32 (hs.c + s.c), m32 (hs.d + s.d),
   m32 (hs.e + s.e), m32 (hs.f + s.f), m32 (hs.g + s.g), m32 (hs.h + s.h)⟩

/-- Big-endian 8-byte encoding of the bit length. -/
def beBytes8 (n : Nat) : List Nat :=
  [(n >>> 56) &&& 255, (n >>> 48) &&& 255, (n >>> 40) &&& 255, (n >>> 32) &&& 255,
   (n >>> 24) &&& 255, (n >>> 16) &&& 255, (n >>> 8) &&& 255, n &&& 255]

/-- SHA-256 padding: append 0x80, zeros to 56 mod 64, then the 64-bit big-endian bit length. -/
def padMsg (msg : List Nat) : List Nat :=
  msg ++ [128] ++ List.replicate ((119 - msg.length % 64) % 64) 0 ++ beBytes8 (msg.length * 8)

/-- Split a byte list into 64-byte chunks (fuel-driven; fuel = list length suffices). -/
def chunksAux : Nat → List Nat → List (List Nat)
  | 0, _ => []
  | _, [] => []
  | fuel + 1, l => l.take 64 :: chunksAux fuel (l.drop 64)

/-- Run SHA-256 over a byte list, producing the final state. -/
def sha256Run (msg : List Nat) : Hash8 :=
  (chunksAux (padMsg msg).length (padMsg msg)).foldl compressBlock initHash

/-- The eight state words in output order. -/
def hashWords (hs : Hash8) : List Nat := [hs.a, hs.b, hs.c, hs.d, hs.e, hs.f, hs.g, hs.h]

/-- Big-endian bytes of a 32-bit word. -/
def wordBytes (w : Nat) : List Nat :=
  [(w >>> 24) &&& 255, (w >>> 16) &&& 255, (w >>> 8) &&& 255, w &&& 255]

/-- SHA-256 digest bytes (32 bytes). -/
def sha256Bytes (msg : List Nat) : List Nat := (hashWords (sha256Run msg)).flatMap wordBytes

/-- Lowercase hex digit for a value below 16. -/
def hexDigitChar (n : Nat) : Char := if n < 10 then Char.ofNat (48 + n) else Char.ofNat (87 + n)

/-- Two lowercase hex digits of a byte. -/
def hexByte (b : Nat) : List Char := [hexDigitChar (b / 16 % 16), hexDigitChar (b % 16)]

/-- UTF-8 bytes of a character. -/
def utf8Bytes (c : Char) : List Nat :=
  let n := c.toNat
  if n < 128 then [n]
  else if n < 2048 then [192 + n / 64, 128 + n % 64]
  else if n < 65536 then [224 + n / 4096, 128 + n / 64 % 64, 128 + n % 64]
  else [240 + n / 262144, 128 + n / 4096 % 64, 128 + n / 64 % 64, 128 + n % 64]

/-- UTF-8 bytes of a string. -/
def strBytes (s : String) : List Nat := s.data.flatMap utf8Bytes

/-- Hex digest of SHA-256 of a string, as produced by
    crypto.createHash(sha256).update(directory).digest(hex). -/
def sha256Hex (s : String) : String := String.mk ((sha256Bytes (strBytes s)).flatMap hexByte)

/-! ### Data model (SessionContext, sessionManager.ts lines 4-14) -/

/-- One history entry: the object literal pushed by updateContext
    (timestamp: new Date().toISOString(), content). -/
structure HistoryEntry where
  timestamp : String
  content : String
deriving DecidableEq

/-- The metadata sub-object of a SessionContext. -/
structure SessionMetadata where
  createdAt : String
  lastAccessed : String
deriving DecidableEq

/-- The SessionContext record persisted (JSON-encoded) per session. -/
structure SessionContext where
  directory : String
  history : List HistoryEntry
  metadata : SessionMetadata
deriving DecidableEq

/-! ### JSON codec for SessionContext

JSON.stringify on a SessionContext produces the keys in JS insertion order
(directory, history, metadata / timestamp, content / createdAt, lastAccessed)
with no whitespace; string values are escaped per the JSON.stringify rules
(quote, backslash, the named control escapes, and a \u00xx escape for the
remaining control characters).  The parser below accepts the grammar this
serializer emits — the only strings the registry ever parses are its own
serializer outputs — and a failure (`none`) models a thrown SyntaxError of
JSON.parse. -/

/-- JSON.stringify escaping of one character. -/
def escChar (c : Char) : List Char :=
  if c = '"' then ['\\', '"']
  else if c = '\\' then ['\\', '\\']
  else if c = '\x08' then ['\\', 'b']
  else if c = '\x09' then ['\\', 't']
  else if c = '\x0a' then ['\\', 'n']
  else if c = '\x0c' then ['\\', 'f']
  else if c = '\x0d' then ['\\', 'r']
  else if c.toNat < 32 then ['\\', 'u', '0', '0', hexDigitChar (c.toNat / 16), hexDigitChar (c.toNat % 16)]
  else [c]

/-- JSON string-body encoding of a character list. -/
def encStrData (l : List Char) : List Char := l.flatMap escChar

/-- Value of a hex digit character. -/
def hexVal (c : Char) : Option Nat :=
  if 48 ≤ c.toNat ∧ c.toNat ≤ 57 then some (c.toNat - 48)
  else if 97 ≤ c.toNat ∧ c.toNat ≤ 102 then some (c.toNat - 87)
  else if 65 ≤ c.toNat ∧ c.toNat ≤ 70 then some (c.toNat - 55)
  else none

/-- Single-character JSON escapes. -/
def unescChar (e : Char) : Option Char :=
  if e = '"' then some '"'
  else if e = '\\' then some '\\'
  else if e = '/' then some '/'
  else if e = 'b' then some '\x08'
  else if e = 't' then some '\x09'
  else if e = 'n' then some '\x0a'
  else if e = 'f' then some '\x0c'
  else if e = 'r' then some '\x0d'
  else none

/-- Parse a JSON string body up to and including the closing quote; returns the
    decoded characters and the rest of the input. -/
def parseStrAux : List Char → Option (List Char × List Char)
  | [] => none
  | c :: rest =>
    if c = '"' then some ([], rest)
    else if c = '\\' then
      match rest with
      | 'u' :: h1 :: h2 :: h3 :: h4 :: rest2 =>
        match hexVal h1, hexVal h2, hexVal h3, hexVal h4 with
        | some a, some b, some c2, some d2 =>
          (parseStrAux rest2).map fun p => (Char.ofNat (((a * 16 + b) * 16 + c2) * 16 + d2) :: p.1, p.2)
        | _, _, _, _ => none
      | e :: rest2 =>
        match unescChar e with
        | some c2 => (parseStrAux rest2).map fun p => (c2 :: p.1, p.2)
        | none => none
      | [] => none
    else (parseStrAux rest).map fun p => (c :: p.1, p.2)

/-- Consume an expected literal character sequence. -/
def stripLit : List Char → List Char → Option (List Char)
  | [], l => some l
  | _ :: _, [] => none
  | c :: cs, x :: xs => if x = c then stripLit cs xs else none

/-- Literal opening a serialized history entry, through the opening quote of its timestamp. -/
def litEntryTs : List Char := "\x7b\"timestamp\":\"".data

/-- Literal between a history entry's timestamp and its content string. -/
def litEntryCt : List Char := ",\"content\":\"".data

/-- Literal opening a serialized SessionContext, through the opening quote of directory. -/
def litDir : List Char := "\x7b\"directory\":\"".data

/-- Literal between the directory string and the history array. -/
def litHist : List Char := ",\"history\":[".data

/-- Literal between the history array's closing bracket and the createdAt string. -/
def litMeta : List Char := ",\"metadata\":\x7b\"createdAt\":\"".data

/-- Literal between createdAt and lastAccessed. -/
def litLast : List Char := ",\"lastAccessed\":\"".data

/-- Serialized form of one history entry. -/
def serializeEntryData (e : HistoryEntry) : List Char :=
  litEntryTs ++ (encStrData e.timestamp.data ++ '"' ::
    (litEntryCt ++ (encStrData e.content.data ++ '"' :: ['\x7d'])))

/-- Comma-joined serialized history entries (JSON.stringify of the array body). -/
def joinEntries : List HistoryEntry → List Char
  | [] => []
  | [e] => serializeEntryData e
  | e :: es => serializeEntryData e ++ ',' :: joinEntries es

/-- Serialized form of a SessionContext (character list). -/
def serializeContextData (ctx : SessionContext) : List Char :=
  litDir ++ (encStrData ctx.directory.data ++ '"' ::
    (litHist ++ (joinEntries ctx.history ++ ']' ::
      (litMeta ++ (encStrData ctx.metadata.createdAt.data ++ '"' ::
        (litLast ++ (encStrData ctx.metadata.lastAccessed.data ++ '"' :: ['\x7d', '\x7d'])))))))

/-- JSON.stringify of a SessionContext. -/
def serializeContext (ctx : SessionContext) : String := String.mk (serializeContextData ctx)

/-- Parse one serialized history entry. -/
def parseEntry (l : List Char) : Option (HistoryEntry × List Char) :=
  match stripLit litEntryTs l with
  | none => none
  | some l1 =>
    match parseStrAux l1 with
    | none => none
    | some (ts, l2) =>
      match stripLit litEntryCt l2 with
      | none => none
      | some l3 =>
        match parseStrAux l3 with
        | none => none
        | some (ct, l4) =>
          match l4 with
          | '\x7d' :: l5 => some (⟨String.mk ts, String.mk ct⟩, l5)
          | _ => none

/-- Parse a nonempty comma-separated run of history entries (stops before the
    character after the last entry); fuel-driven, fuel = input length suffices. -/
def parseEntriesAux : Nat → List Char → Option (List HistoryEntry × List Char)
  | 0, _ => none
  | fuel + 1, l =>
    match parseEntry l with
    | none => none
    | some (e, l2) =>
      match l2 with
      | ',' :: l3 =>
        match parseEntriesAux fuel l3 with
        | some (es, r) => some (e :: es, r)
        | none => none
      | _ => some ([e], l2)

/-- Parse the body of the history array together with its closing bracket:
    an immediate `]` is the empty array, anything else is a nonempty
    comma-separated entry run that must be followed by `]`. -/
def parseHistBody (l3 : List Char) : Option (List HistoryEntry × List Char) :=
  match l3 with
  | ']' :: r => some ([], r)
  | _ =>
    match parseEntriesAux l3.length l3 with
    | some (es, ']' :: r) => some (es, r)
    | _ => none

/-- JSON.parse of a serialized SessionContext (specialised to the grammar
    JSON.stringify emits for this record shape); `none` models a thrown SyntaxError. -/
def parseContext (s : String) : Option SessionContext :=
  match stripLit litDir s.data with
  | none => none
  | some l1 =>
    match parseStrAux l1 with
    | none => none
    | some (dir, l2) =>
      match stripLit litHist l2 with
      | none => none
      | some l3 =>
        match parseHistBody l3 with
        | none => none
        | some (hist, l4) =>
          match stripLit litMeta l4 with
          | none => none
          | some l5 =>
            match parseStrAux l5 with
            | none => none
            | some (ca, l6) =>
              match stripLit litLast l6 with
              | none => none
              | some l7 =>
                match parseStrAux l7 with
                | none => none
                | some (la, l8) =>
                  match l8 with
                  | ['\x7d', '\x7d'] => some ⟨String.mk dir, hist, ⟨String.mk ca, String.mk la⟩⟩
                  | _ => none

/-! ### Store Adapter (RedisClient, index.ts second file) -/

/-- The key-value backend: string keys to string values; `none` is a missing key,
    exactly the `string | null` result of RedisClient.get. -/
def Store := String → Option String

/-- RedisClient.get. -/
def Store.get (st : Store) (k : String) : Option String := st k

/-- RedisClient.set (the registry never passes expireSeconds). -/
def Store.set (st : Store) (k v : String) : Store := fun q => if q = k then some v else st q

/-- RedisClient.delete (redis DEL: removing a missing key is a no-op). -/
def Store.delete (st : Store) (k : String) : Store := fun q => if q = k then none else st q

/-- The store with no keys. -/
def Store.empty : Store := fun _ => none

/-! ### Session Registry (SessionManager, sessionManager.ts) -/

/-- SessionManager.SESSION_PREFIX (declared but unused by the four operations). -/
def sessionKeyBase : String := "cline:session:"

/-- SessionManager.CONTEXT_PREFIX. -/
def contextKeyBase : String := "cline:context:"

/-- SessionManager.hashDirectory: first 8 hex characters
    (`.substring(0, 8)`) of the SHA-256 hex digest of the directory string. -/
def hashDirectory (directory : String) : String := String.mk ((sha256Hex directory).data.take 8)

/-- SessionManager.getContextKey: CONTEXT_PREFIX + dirHash + ":" + sessionId. -/
def getContextKey (directory sessionId : String) : String :=
  contextKeyBase ++ hashDirectory directory ++ ":" ++ sessionId

/-- Errors thrown by the registry operations: the explicit
    `throw new Error(...)` of updateContext on a missing session, and a
    SyntaxError of JSON.parse on undecodable stored data. -/
inductive OpErr where
  | notFound (sessionId directory : String)
  | parseFailure
deriving DecidableEq

/-- Result of a registry operation: `ok` carries the value and the store after the
    operation; `err` models a thrown exception and carries the store as it was at
    the throw (the source throws before any write in every error path). -/
inductive OpResult (α : Type) where
  | ok (value : α) (st : Store)
  | err (e : OpErr) (st : Store)

/-- SessionManager.createSession: build the key from the (randomly generated)
    sessionId, write a fresh SessionContext with empty history and both
    timestamps set to now, return the sessionId. -/
def createSession (st : Store) (directory sessionId now : String) : String × Store :=
  let contextKey := getContextKey directory sessionId
  let initialContext : SessionContext := ⟨directory, [], ⟨now, now⟩⟩
  (sessionId, st.set contextKey (serializeContext initialContext))

/-- SessionManager.getContext: read the key; a falsy value (`!data`: missing key
    or empty string) returns null; otherwise parse, set metadata.lastAccessed to
    now, write the updated record back, and return it. -/
def getContext (st : Store) (directory sessionId now : String) :
    OpResult (Option SessionContext) :=
  let contextKey := getContextKey directory sessionId
  match st.get contextKey with
  | none => .ok none st
  | some data =>
    if data = "" then .ok none st
    else
      match parseContext data with
      | none => .err .parseFailure st
      | some context =>
        let context2 := { context with metadata := { context.metadata with lastAccessed := now } }
        .ok (some context2) (st.set contextKey (serializeContext context2))

/-- SessionManager.updateContext: read the key; a falsy value throws the
    "No context found" Error; otherwise parse, push {timestamp: now, content}
    onto history, set metadata.lastAccessed to now, write the record back. -/
def updateContext (st : Store) (directory sessionId content now : String) :
    OpResult Unit :=
  let contextKey := getContextKey directory sessionId
  match st.get contextKey with
  | none => .err (.notFound sessionId directory) st
  | some existingData =>
    if existingData = "" then .err (.notFound sessionId directory) st
    else
      match parseContext existingData with
      | none => .err .parseFailure st
      | some context =>
        let context2 := { context with
          history := context.history ++ [⟨now, content⟩],
          metadata := { context.metadata with lastAccessed := now } }
        .ok () (st.set contextKey (serializeContext context2))

/-- SessionManager.endSession: delete the key unconditionally. -/
def endSession (st : Store) (directory sessionId : String) : Store :=
  st.delete (getContextKey directory sessionId)

/-- SessionManager.validateSession: delegates to getContext and checks the
    directory field of the returned record. -/
def validateSession (st : Store) (directory sessionId now : String) :
    OpResult Bool :=
  match getContext st directory sessionId now with
  | .ok context st2 =>
    .ok (match context with
         | some ctx => ctx.directory = directory
         | none => false) st2
  | .err e st2 => .err e st2

/-- The history stored under a key, when the key holds a decodable record. -/
def historyAt (st : Store) (k : String) : Option (List HistoryEntry) :=
  match st.get k with
  | none => none
  | some data => (parseContext data).map (fun ctx => ctx.history)

/-! ### RPC tool dispatch (ClineMcpServer.setupToolHandlers, index.ts) -/

/-- An argument value in the RPC argument mapping: a string, or some value of
    any other JSON type (the handler only ever distinguishes the two). -/
inductive ArgVal where
  | str (s : String)
  | nonStr
deriving DecidableEq

/-- The RPC argument object: field names mapped to values. -/
def Args := List (String × ArgVal)

/-- Field extraction as the handler checks it: present and of string type
    (`'k' in args && typeof args.k === 'string'`). -/
def argStr (args : Args) (k : String) : Option String :=
  match List.lookup k args with
  | some (.str s) => some s
  | _ => none

/-- McpError codes used by the handler (ErrorCode of the MCP SDK). -/
inductive ErrCode where
  | invalidParams
  | methodNotFound
  | internalError
deriving DecidableEq

/-- An exception thrown inside the handler's try block: a constructed McpError,
    or a plain Error / SyntaxError propagating out of the SessionManager. -/
inductive BodyErr where
  | mcp (code : ErrCode) (message : String)
  | thrown (message : String)
deriving DecidableEq

/-- The message of the Error thrown by SessionManager.updateContext; the text
    of a JSON.parse SyntaxError is engine-defined, a fixed stand-in is used. -/
def opErrMessage : OpErr → String
  | .notFound sessionId directory =>
      "No context found for session " ++ sessionId ++ " in directory " ++ directory
  | .parseFailure => "Unexpected token in JSON"

/-- The error.message the catch block reads from a thrown exception. -/
def bodyErrMessage : BodyErr → String
  | .mcp _ message => message
  | .thrown message => message

/-- Outcome of one CallTool request: a text-payload result, or an McpError. -/
inductive CallOutcome where
  | success (text : String) (st : Store)
  | rpcError (code : ErrCode) (message : String) (st : Store)

/-- The try-block body of the CallTool handler: the switch on the tool name with
    its per-field argument checks (each check throws McpError(InvalidParams)
    before any store access) and the calls into the SessionManager.  An error
    result carries the store at the moment of the throw. -/
def tryBody (st : Store) (name : String) (args : Args) (sid now : String) :
    Except (BodyErr × Store) (String × Store) :=
  if name = "create_session" then
    match argStr args "directory" with
    | none => .error (.mcp .invalidParams "Invalid directory parameter", st)
    | some directory =>
      let r := createSession st directory sid now
      .ok ("\x7b\"sessionId\":\"" ++ String.mk (encStrData r.1.data) ++ "\"\x7d", r.2)
  else if name = "get_context" then
    match argStr args "directory", argStr args "sessionId" with
    | some directory, some sessionId =>
      (match getContext st directory sessionId now with
       | .ok context st2 =>
         .ok ((match context with
               | some ctx => serializeContext ctx
               | none => "null"), st2)
       | .err e st2 => .error (.thrown (opErrMessage e), st2))
    | _, _ => .error (.mcp .invalidParams "Invalid directory or sessionId parameter", st)
  else if name = "update_context" then
    match argStr args "directory", argStr args "sessionId", argStr args "content" with
    | some directory, some sessionId, some content =>
      (match updateContext st directory sessionId content now with
       | .ok _ st2 => .ok ("\x7b\"success\":true\x7d", st2)
       | .err e st2 => .error (.thrown (opErrMessage e), st2))
    | _, _, _ => .error (.mcp .invalidParams "Invalid directory, sessionId, or content parameter", st)
  else if name = "end_session" then
    match argStr args "directory", argStr args "sessionId" with
    | some directory, some sessionId =>
      .ok ("\x7b\"success\":true\x7d", endSession st directory sessionId)
    | _, _ => .error (.mcp .invalidParams "Invalid directory or sessionId parameter", st)
  else .error (.mcp .methodNotFound ("Unknown tool: " ++ name), st)

/-- The CallTool request handler.  The `!args || typeof args !== 'object'` check
    sits before the try block, so its McpError(InvalidParams) surfaces as is;
    every exception thrown inside the try block — including the McpError values
    the switch itself constructs — is caught and re-thrown as
    McpError(ErrorCode.InternalError, error.message). -/
def handleCallTool (st : Store) (name : String) (args : Option Args) (sid now : String) :
    CallOutcome :=
  match args with
  | none => .rpcError .invalidParams "Invalid arguments" st
  | some args =>
    match tryBody st name args sid now with
    | .ok (text, st2) => .success text st2
    | .error (e, st2) => .rpcError .internalError (bodyErrMessage e) st2

/-! ### Codec lemmas -/

/-- stripLit consumes exactly a literal prefix. -/
theorem stripLit_append (lit l : List Char) : stripLit lit (lit ++ l) = some l := by
  induction lit with
  | nil => simp [stripLit]
  | cons c cs ih => simp [stripLit, ih]

/-- hexVal decodes hexDigitChar. -/
theorem hexVal_hexDigitChar (n : Nat) (h : n < 16) : hexVal (hexDigitChar n) = some n := by
  interval_cases n <;> decide

/-- Parsing the escaped encoding of a character list, followed by a closing
    quote, recovers the list. -/
theorem parseStrAux_encode (l r : List Char) :
    parseStrAux (encStrData l ++ '"' :: r) = some (l, r) := by
  induction l with
  | nil =>
    rw [show encStrData [] ++ '"' :: r = '"' :: r from rfl, parseStrAux.eq_def]
    simp
  | cons c l ih =>
    simp only [encStrData, List.flatMap_cons] at ih ⊢
    rw [List.append_assoc]
    by_cases h1 : c = '"'
    · subst h1; simpa [escChar, parseStrAux, unescChar] using ih
    · by_cases h2 : c = '\\'
      · subst h2; simpa [escChar, parseStrAux, unescChar] using ih
      · by_cases h3 : c = '\x08'
        · subst h3; simpa [escChar, parseStrAux, unescChar] using ih
        · by_cases h4 : c = '\x09'
          · subst h4; simpa [escChar, parseStrAux, unescChar] using ih
          · by_cases h5 : c = '\x0a'
            · subst h5; simpa [escChar, parseStrAux, unescChar] using ih
            · by_cases h6 : c = '\x0c'
              · subst h6; simpa [escChar, parseStrAux, unescChar] using ih
              · by_cases h7 : c = '\x0d'
                · subst h7; simpa [escChar, parseStrAux, unescChar] using ih
                · by_cases h8 : c.toNat < 32
                  · have hd : c.toNat / 16 < 16 := by omega
                    have hm : c.toNat % 16 < 16 := by omega
                    simp only [escChar, if_neg h1, if_neg h2, if_neg h3, if_neg h4, if_neg h5,
                      if_neg h6, if_neg h7, if_pos h8, List.cons_append, List.nil_append]
                    simp only [parseStrAux, reduceIte, hexVal_hexDigitChar _ hd,
                      hexVal_hexDigitChar _ hm]
                    simp only [hexVal, reduceIte]
                    rw [ih]
                    have he : c.toNat / 16 * 16 + c.toNat % 16 = c.toNat := by omega
                    simp [he, Char.ofNat_toNat]
                  · simp only [escChar, if_neg h1, if_neg h2, if_neg h3, if_neg h4, if_neg h5,
                      if_neg h6, if_neg h7, if_neg h8, List.cons_append, List.nil_append]
                    rw [parseStrAux.eq_def]
                    simp [h1, h2, ih]

/-- String.mk is the inverse of String.data. -/
theorem data_mk (l : List Char) : (String.mk l).data = l := rfl

/-- Parsing a serialized history entry recovers the entry. -/
theorem parseEntry_encode (e : HistoryEntry) (r : List Char) :
    parseEntry (serializeEntryData e ++ r) = some (e, r) := by
  simp only [serializeEntryData, List.append_assoc, List.cons_append, List.nil_append]
  simp only [parseEntry, stripLit_append, parseStrAux_encode]

/-- joinEntries on a single entry. -/
theorem joinEntries_one (a : HistoryEntry) : joinEntries [a] = serializeEntryData a := rfl

/-- joinEntries on two or more entries. -/
theorem joinEntries_cons2 (a b : HistoryEntry) (l : List HistoryEntry) :
    joinEntries (a :: b :: l) = serializeEntryData a ++ ',' :: joinEntries (b :: l) := rfl

/-- A serialized entry is nonempty. -/
theorem serializeEntryData_length_pos (e : HistoryEntry) : 0 < (serializeEntryData e).length := by
  have h : litEntryTs.length = 14 := rfl
  simp [serializeEntryData, List.length_append]

/-- The serialized history body is at least as long as the entry count. -/
theorem joinEntries_length (e : HistoryEntry) (es : List HistoryEntry) :
    es.length + 1 ≤ (joinEntries (e :: es)).length := by
  induction es generalizing e with
  | nil => simpa [joinEntries_one] using serializeEntryData_length_pos e
  | cons e2 es ih =>
    have h1 := serializeEntryData_length_pos e
    have h2 := ih e2
    rw [joinEntries_cons2]
    simp only [List.length_append, List.length_cons]
    simp only [List.length_cons] at h2
    omega

/-- Parsing a serialized nonempty entry run, stopped at the closing bracket,
    recovers the entries. -/
theorem parseEntriesAux_encode (es : List HistoryEntry) (e : HistoryEntry) (r : List Char)
    (fuel : Nat) (hf : es.length < fuel) :
    parseEntriesAux fuel (joinEntries (e :: es) ++ ']' :: r) = some (e :: es, ']' :: r) := by
  induction es generalizing e fuel with
  | nil =>
    obtain ⟨f, rfl⟩ : ∃ f, fuel = f + 1 := ⟨fuel - 1, by omega⟩
    rw [joinEntries_one]
    simp [parseEntriesAux, parseEntry_encode]
  | cons e2 es ih =>
    obtain ⟨f, rfl⟩ : ∃ f, fuel = f + 1 := ⟨fuel - 1, by omega⟩
    rw [joinEntries_cons2, List.append_assoc, List.cons_append]
    have hih := ih e2 f (by simp at hf ⊢; omega)
    simp [parseEntriesAux, parseEntry_encode, hih]

/-- parseHistBody on a non-bracket head takes the entry-run branch. -/
theorem parseHistBody_brace (t : List Char) :
    parseHistBody ('\x7b' :: t) =
      match parseEntriesAux ('\x7b' :: t).length ('\x7b' :: t) with
      | some (es, ']' :: r) => some (es, r)
      | _ => none := rfl

/-- Parsing a serialized history body recovers the history. -/
theorem parseHistBody_encode (hist : List HistoryEntry) (r : List Char) :
    parseHistBody (joinEntries hist ++ ']' :: r) = some (hist, r) := by
  cases hist with
  | nil => rfl
  | cons e es =>
    obtain ⟨t, ht⟩ : ∃ t, joinEntries (e :: es) ++ ']' :: r = '\x7b' :: t := by
      cases es <;> exact ⟨_, rfl⟩
    rw [ht, parseHistBody_brace, ← ht]
    have hlen : es.length < (joinEntries (e :: es) ++ ']' :: r).length := by
      have := joinEntries_length e es
      simp only [List.length_append, List.length_cons]
      omega
    rw [parseEntriesAux_encode es e r _ hlen]
    simp

/-- Round trip: JSON.parse recovers every JSON.stringify output. -/
theorem parseContext_serializeContext (ctx : SessionContext) :
    parseContext (serializeContext ctx) = some ctx := by
  obtain ⟨dir, hist, ca, la⟩ := ctx
  simp only [serializeContext, serializeContextData, parseContext, data_mk,
    List.append_assoc, List.cons_append, List.nil_append,
    stripLit_append, parseStrAux_encode, parseHistBody_encode]

/-- A serialized SessionContext is never the empty string. -/
theorem serializeContext_ne_empty (ctx : SessionContext) : serializeContext ctx ≠ "" := by
  intro h
  have h1 := parseContext_serializeContext ctx
  rw [h] at h1
  have h2 : parseContext "" = none := rfl
  rw [h2] at h1
  exact Option.noConfusion h1

/-! ### Store lemmas -/

/-- Reading a key just written. -/
theorem Store.get_set_self (st : Store) (k v : String) : (st.set k v).get k = some v := by
  simp [Store.get, Store.set]

/-- Writing one key leaves the others unchanged. -/
theorem Store.get_set_ne (st : Store) (k v q : String) (h : q ≠ k) :
    (st.set k v).get q = st.get q := by
  simp [Store.get, Store.set, h]

/-- Reading a key just deleted. -/
theorem Store.get_delete_self (st : Store) (k : String) : (st.delete k).get k = none := by
  simp [Store.get, Store.delete]

/-- Deleting one key leaves the others unchanged. -/
theorem Store.get_delete_ne (st : Store) (k q : String) (h : q ≠ k) :
    (st.delete k).get q = st.get q := by
  simp [Store.get, Store.delete, h]

/-- The empty store has no keys. -/
theorem Store.get_empty (k : String) : Store.empty.get k = none := rfl

/-! ### Operation-level lemmas -/

/-- getContext on a key holding a serialized record: touches lastAccessed,
    writes the touched record back, returns it. -/
theorem getContext_of_stored (st : Store) (d s now : String) (ctx : SessionContext)
    (hst : st.get (getContextKey d s) = some (serializeContext ctx)) :
    getContext st d s now =
      .ok (some { ctx with metadata := { ctx.metadata with lastAccessed := now } })
        (st.set (getContextKey d s)
          (serializeContext { ctx with metadata := { ctx.metadata with lastAccessed := now } })) := by
  simp only [getContext, hst, if_neg (serializeContext_ne_empty ctx), parseContext_serializeContext]

/-- updateContext on a key holding a serialized record: appends one history
    entry, touches lastAccessed, writes the record back. -/
theorem updateContext_of_stored (st : Store) (d s c now : String) (ctx : SessionContext)
    (hst : st.get (getContextKey d s) = some (serializeContext ctx)) :
    updateContext st d s c now =
      .ok () (st.set (getContextKey d s)
        (serializeContext { ctx with
          history := ctx.history ++ [⟨now, c⟩],
          metadata := { ctx.metadata with lastAccessed := now } })) := by
  simp only [updateContext, hst, if_neg (serializeContext_ne_empty ctx), parseContext_serializeContext]

/-! ### Key-derivation lemmas -/

/-- The hex digest always has 64 characters. -/
theorem sha256Hex_length (s : String) : (sha256Hex s).data.length = 64 := by
  simp [sha256Hex, sha256Bytes, hashWords, wordBytes, hexByte, data_mk,
    List.flatMap_cons, List.flatMap_nil, List.length_append]

/-- The directory hash always has 8 characters. -/
theorem hashDirectory_length (d : String) : (hashDirectory d).data.length = 8 := by
  have h := sha256Hex_length d
  simp only [hashDirectory, data_mk, List.length_take, h]
  decide

set_option maxRecDepth 100000 in
/-- FIPS 180-2 test vector: evidence that the embedded hash is SHA-256. -/
theorem sha256Hex_testVector :
    sha256Hex "abc" = "ba7816bf8f01cfea414140de5dae2223b00361a396177a9cb410ff61f20015ad" := by
  decide

/-- The store state after an operation, for both the return and the throw path. -/
def OpResult.store {α : Type} : OpResult α → Store
  | .ok _ st => st
  | .err _ st => st

/-! ### Claims -/

/-- C1: for every directory d, createSession(d) returns the generated sessionId,
    stores a record with empty history, directory d and both timestamps set to
    the creation instant, and a subsequent getContext(d, id) returns that record
    present, with empty history, directory d, createdAt still the creation
    instant and lastAccessed updated to the read instant. -/
theorem claim1_create_then_get (st : Store) (d sid now now2 : String) :
    (createSession st d sid now).1 = sid
    ∧ (createSession st d sid now).2.get (getContextKey d sid) =
        some (serializeContext ⟨d, [], ⟨now, now⟩⟩)
    ∧ getContext (createSession st d sid now).2 d sid now2 =
        .ok (some ⟨d, [], ⟨now, now2⟩⟩)
          ((createSession st d sid now).2.set (getContextKey d sid)
            (serializeContext ⟨d, [], ⟨now, now2⟩⟩)) := by
  refine ⟨rfl, Store.get_set_self .., ?_⟩
  exact getContext_of_stored _ d sid now2 ⟨d, [], ⟨now, now⟩⟩ (Store.get_set_self ..)

/-- C3: updateContext on a key absent from the store fails with the NotFound
    error (a condition distinct from parameter validation, which never reaches
    the registry) and the store at the throw is the unmodified input store. -/
theorem claim3_update_missing (st : Store) (d s c now : String)
    (habs : st.get (getContextKey d s) = none) :
    updateContext st d s c now = .err (.notFound s d) st := by
  simp only [updateContext, habs]

/-- Witness for C3 at a concrete input. -/
theorem claim3_witness :
    updateContext Store.empty "d" "s" "c" "t" = .err (.notFound "s" "d") Store.empty :=
  claim3_update_missing Store.empty "d" "s" "c" "t" rfl

/-- Modelled from the spec: contextKeyPrefix + hash8(directory) + ":" + sessionId,
    where hash8 is the first 8 hex characters of SHA-256 of the raw directory string. -/
def specStorageKey (directory sessionId : String) : String :=
  "cline:context:" ++ String.mk ((sha256Hex directory).data.take 8) ++ ":" ++ sessionId

/-- C4: the derived storage key equals "cline:context:" ++ (first 8 hex
    characters of SHA-256(directory)) ++ ":" ++ sessionId; both sides are pure
    functions of (directory, sessionId) alone. -/
theorem claim4_storage_key (d s : String) : getContextKey d s = specStorageKey d s := rfl

/-- C9: distinct directories whose 8-character hashes differ derive distinct
    storage keys for every sessionId. -/
theorem claim9_distinct_keys (d1 d2 s : String) (_hd : d1 ≠ d2)
    (hne : hashDirectory d1 ≠ hashDirectory d2) :
    getContextKey d1 s ≠ getContextKey d2 s := by
  intro hk
  apply hne
  have hdata : (getContextKey d1 s).data = (getContextKey d2 s).data := by rw [hk]
  simp only [getContextKey, String.data_append, List.append_assoc] at hdata
  have hcut := List.append_cancel_left hdata
  have e1 : ((hashDirectory d1).data ++ (":".data ++ s.data)).take 8 = (hashDirectory d1).data := by
    rw [← hashDirectory_length d1]
    exact List.take_left _ _
  have e2 : ((hashDirectory d2).data ++ (":".data ++ s.data)).take 8 = (hashDirectory d2).data := by
    rw [← hashDirectory_length d2]
    exact List.take_left _ _
  have : (hashDirectory d1).data = (hashDirectory d2).data := by
    rw [← e1, ← e2, hcut]
  calc hashDirectory d1 = String.mk (hashDirectory d1).data := rfl
    _ = String.mk (hashDirectory d2).data := by rw [this]
    _ = hashDirectory d2 := rfl

set_option maxRecDepth 1000000 in
/-- Witness for C9 at concrete directories with different hashes. -/
theorem claim9_witness : getContextKey "a" "x" ≠ getContextKey "b" "x" :=
  claim9_distinct_keys "a" "b" "x" (by decide) (by decide)

/-- C7: on an absent key getContext returns null without error; endSession on an
    absent key leaves every key of the store unchanged (no-op); after endSession
    on any store, getContext returns null; endSession is idempotent. -/
theorem claim7_absent_not_error (st : Store) (d s now : String)
    (habs : st.get (getContextKey d s) = none) :
    getContext st d s now = .ok none st
    ∧ (∀ k, (endSession st d s).get k = st.get k)
    ∧ (∀ st2 : Store, getContext (endSession st2 d s) d s now = .ok none (endSession st2 d s))
    ∧ (∀ st2 : Store, ∀ k,
        (endSession (endSession st2 d s) d s).get k = (endSession st2 d s).get k) := by
  refine ⟨by simp [getContext, habs], ?_, ?_, ?_⟩
  · intro k
    by_cases hk : k = getContextKey d s
    · subst hk; simp [endSession, Store.get_delete_self, habs]
    · simp [endSession, Store.get_delete_ne _ _ _ hk]
  · intro st2
    simp [getContext, endSession, Store.get_delete_self]
  · intro st2 k
    by_cases hk : k = getContextKey d s
    · subst hk; simp [endSession, Store.get_delete_self]
    · simp [endSession, Store.get_delete_ne _ _ _ hk]

/-- Witness for C7 at a concrete input. -/
theorem claim7_witness :
    getContext Store.empty "d" "s" "t" = .ok none Store.empty
    ∧ (∀ k, (endSession Store.empty "d" "s").get k = Store.empty.get k)
    ∧ (∀ st2 : Store, getContext (endSession st2 "d" "s") "d" "s" "t" =
        .ok none (endSession st2 "d" "s"))
    ∧ (∀ st2 : Store, ∀ k,
        (endSession (endSession st2 "d" "s") "d" "s").get k = (endSession st2 "d" "s").get k) :=
  claim7_absent_not_error Store.empty "d" "s" "t" rfl

/-- C10: a stored empty-string value — a present value the Store Adapter's get
    returns as distinct from a missing key — is treated by the registry exactly
    like an absent session: getContext returns null, updateContext throws
    NotFound, both without writing. -/
theorem claim10_empty_value (st : Store) (d s c now : String)
    (hemp : st.get (getContextKey d s) = some "") :
    getContext st d s now = .ok none st
    ∧ updateContext st d s c now = .err (.notFound s d) st
    ∧ st.get (getContextKey d s) ≠ none := by
  refine ⟨?_, ?_, ?_⟩
  · simp [getContext, hemp]
  · simp [updateContext, hemp]
  · simp [hemp]

/-- Witness for C10 at a concrete input. -/
theorem claim10_witness :
    getContext (Store.empty.set (getContextKey "d" "s") "") "d" "s" "t" =
      .ok none (Store.empty.set (getContextKey "d" "s") "")
    ∧ updateContext (Store.empty.set (getContextKey "d" "s") "") "d" "s" "c" "t" =
      .err (.notFound "s" "d") (Store.empty.set (getContextKey "d" "s") "")
    ∧ (Store.empty.set (getContextKey "d" "s") "").get (getContextKey "d" "s") ≠ none :=
  claim10_empty_value (Store.empty.set (getContextKey "d" "s") "") "d" "s" "c" "t"
    (Store.get_set_self ..)

/-- C2: updateContext on an existing session appends exactly the one entry
    {timestamp: now, content: c} at the end of history and sets lastAccessed to
    now, leaving every other key unchanged; a subsequent getContext returns the
    appended entry as the last history entry, whose timestamp now is at or after
    the session's createdAt whenever the clock read is (clock monotonicity). -/
theorem claim2_update_appends (st : Store) (d s c now now2 : String) (ctx : SessionContext)
    (hst : st.get (getContextKey d s) = some (serializeContext ctx))
    (hclock : ctx.metadata.createdAt ≤ now) :
    ∃ st1, updateContext st d s c now = .ok () st1
      ∧ st1.get (getContextKey d s) =
          some (serializeContext { ctx with
            history := ctx.history ++ [⟨now, c⟩],
            metadata := { ctx.metadata with lastAccessed := now } })
      ∧ (∀ k, k ≠ getContextKey d s → st1.get k = st.get k)
      ∧ ∃ ctx2 st2, getContext st1 d s now2 = .ok (some ctx2) st2
          ∧ ctx2.history.getLast? = some ⟨now, c⟩
          ∧ ctx2.metadata.createdAt ≤ now := by
  refine ⟨_, updateContext_of_stored st d s c now ctx hst, Store.get_set_self .., ?_, ?_⟩
  · intro k hk
    exact Store.get_set_ne _ _ _ _ hk
  · refine ⟨_, _, getContext_of_stored _ d s now2 _ (Store.get_set_self ..), ?_, hclock⟩
    simp

/-- Witness for C2 at a concrete input. -/
theorem claim2_witness :
    ∃ st1, updateContext (Store.empty.set (getContextKey "d" "s")
        (serializeContext ⟨"d", [], ⟨"t0", "t0"⟩⟩)) "d" "s" "c" "t1" = .ok () st1
      ∧ st1.get (getContextKey "d" "s") =
          some (serializeContext ⟨"d", [⟨"t1", "c"⟩], ⟨"t0", "t1"⟩⟩)
      ∧ (∀ k, k ≠ getContextKey "d" "s" →
          st1.get k = (Store.empty.set (getContextKey "d" "s")
            (serializeContext ⟨"d", [], ⟨"t0", "t0"⟩⟩)).get k)
      ∧ ∃ ctx2 st2, getContext st1 "d" "s" "t2" = .ok (some ctx2) st2
          ∧ ctx2.history.getLast? = some ⟨"t1", "c"⟩
          ∧ ctx2.metadata.createdAt ≤ "t1" :=
  claim2_update_appends _ "d" "s" "c" "t1" "t2" ⟨"d", [], ⟨"t0", "t0"⟩⟩
    (Store.get_set_self ..) (by rw [String.le_iff_toList_le]; decide)

/-- C5: getContext on an existing session changes only metadata.lastAccessed in
    the stored record (history, directory and createdAt are unchanged by the
    read), leaves every other key unchanged, returns the record with the new
    lastAccessed and the history that was read, and of two successive calls the
    second returned lastAccessed is at or after the first whenever the clock
    reads are ordered (clock monotonicity). -/
theorem claim5_get_frame (st : Store) (d s now1 now2 : String) (ctx : SessionContext)
    (hst : st.get (getContextKey d s) = some (serializeContext ctx))
    (hclock : now1 ≤ now2) :
    ∃ ctx1 st1, getContext st d s now1 = .ok (some ctx1) st1
      ∧ ctx1.history = ctx.history
      ∧ ctx1.directory = ctx.directory
      ∧ ctx1.metadata.createdAt = ctx.metadata.createdAt
      ∧ ctx1.metadata.lastAccessed = now1
      ∧ st1.get (getContextKey d s) = some (serializeContext ctx1)
      ∧ (∀ k, k ≠ getContextKey d s → st1.get k = st.get k)
      ∧ ∃ ctx2 st2, getContext st1 d s now2 = .ok (some ctx2) st2
          ∧ ctx2.history = ctx1.history
          ∧ ctx1.metadata.lastAccessed ≤ ctx2.metadata.lastAccessed := by
  refine ⟨_, _, getContext_of_stored st d s now1 ctx hst, rfl, rfl, rfl, rfl,
    Store.get_set_self .., ?_, ?_⟩
  · intro k hk
    exact Store.get_set_ne _ _ _ _ hk
  · exact ⟨_, _, getContext_of_stored _ d s now2 _ (Store.get_set_self ..), rfl, hclock⟩

/-- Witness for C5 at a concrete input. -/
theorem claim5_witness :
    ∃ ctx1 st1, getContext (Store.empty.set (getContextKey "d" "s")
        (serializeContext ⟨"d", [⟨"t0", "m"⟩], ⟨"t0", "t0"⟩⟩)) "d" "s" "t1" =
          .ok (some ctx1) st1
      ∧ ctx1.history = [⟨"t0", "m"⟩]
      ∧ ctx1.directory = "d"
      ∧ ctx1.metadata.createdAt = "t0"
      ∧ ctx1.metadata.lastAccessed = "t1"
      ∧ st1.get (getContextKey "d" "s") = some (serializeContext ctx1)
      ∧ (∀ k, k ≠ getContextKey "d" "s" →
          st1.get k = (Store.empty.set (getContextKey "d" "s")
            (serializeContext ⟨"d", [⟨"t0", "m"⟩], ⟨"t0", "t0"⟩⟩)).get k)
      ∧ ∃ ctx2 st2, getContext st1 "d" "s" "t2" = .ok (some ctx2) st2
          ∧ ctx2.history = ctx1.history
          ∧ ctx1.metadata.lastAccessed ≤ ctx2.metadata.lastAccessed :=
  claim5_get_frame _ "d" "s" "t1" "t2" ⟨"d", [⟨"t0", "m"⟩], ⟨"t0", "t0"⟩⟩
    (Store.get_set_self ..) (by rw [String.le_iff_toList_le]; decide)

/-- Key used by the C6 counterexample scenario. -/
def c6Key : String := getContextKey "d" "s"

/-- Store after createSession("d") with sessionId "s" at time "t1". -/
def c6Store1 : Store := (createSession Store.empty "d" "s" "t1").2

/-- Store after a successful updateContext("d", "s", "x") at time "t2". -/
def c6Store2 : Store :=
  match updateContext c6Store1 "d" "s" "x" "t2" with
  | .ok _ st => st
  | .err _ st => st

/-- Store after calling createSession again with the same directory and the
    same (randomly re-drawn) sessionId "s" at time "t3". -/
def c6Store3 : Store := (createSession c6Store2 "d" "s" "t3").2

set_option maxRecDepth 1000000 in
/-- Counterexample to C6 as stated: over the operation sequence createSession,
    updateContext, createSession with the same (directory, sessionId) — the
    session-id generator has no uniqueness check, so this sequence is reachable —
    the stored history goes from [{"t2","x"}] to [], which neither equals the
    prior history nor extends it by appending: the second createSession
    destroyed an existing history entry. -/
theorem claim6_counterexample :
    historyAt c6Store2 c6Key = some [⟨"t2", "x"⟩]
    ∧ historyAt c6Store3 c6Key = some []
    ∧ ([(⟨"t2", "x"⟩ : HistoryEntry)].isPrefixOf ([] : List HistoryEntry)) = false := by
  refine ⟨by decide, by decide, rfl⟩

/-- C6 (amended): getContext never changes the history stored under any key;
    updateContext leaves every other key's history unchanged and, when it
    succeeds, appends exactly one entry at the end of its own key's history;
    createSession installs a fresh empty history under its key (overwriting any
    record already there) leaving other keys unchanged; endSession removes its
    key's record leaving other keys unchanged. -/
theorem claim6_append_only (st : Store) (d s c now k : String) :
    historyAt ((getContext st d s now).store) k = historyAt st k
    ∧ (k ≠ getContextKey d s →
        historyAt ((updateContext st d s c now).store) k = historyAt st k)
    ∧ (∀ st2, updateContext st d s c now = .ok () st2 →
        ∃ h, historyAt st (getContextKey d s) = some h
           ∧ historyAt st2 (getContextKey d s) = some (h ++ [⟨now, c⟩]))
    ∧ historyAt ((createSession st d s now).2) (getContextKey d s) = some []
    ∧ (k ≠ getContextKey d s → historyAt ((createSession st d s now).2) k = historyAt st k)
    ∧ historyAt (endSession st d s) (getContextKey d s) = none
    ∧ (k ≠ getContextKey d s → historyAt (endSession st d s) k = historyAt st k) := by
  have hcreate : historyAt ((createSession st d s now).2) (getContextKey d s) = some [] := by
    simp [createSession, historyAt, Store.get_set_self, parseContext_serializeContext]
  have hcreate2 : k ≠ getContextKey d s →
      historyAt ((createSession st d s now).2) k = historyAt st k := fun hk => by
    simp [createSession, historyAt, Store.get_set_ne _ _ _ _ hk]
  have hend : historyAt (endSession st d s) (getContextKey d s) = none := by
    simp [endSession, historyAt, Store.get_delete_self]
  have hend2 : k ≠ getContextKey d s →
      historyAt (endSession st d s) k = historyAt st k := fun hk => by
    simp [endSession, historyAt, Store.get_delete_ne _ _ _ hk]
  cases hget : st.get (getContextKey d s) with
  | none =>
    refine ⟨by simp [getContext, hget, OpResult.store],
      fun _ => by simp [updateContext, hget, OpResult.store],
      fun st2 h => ?_, hcreate, hcreate2, hend, hend2⟩
    simp [updateContext, hget] at h
  | some data =>
    by_cases hdat : data = ""
    · subst hdat
      refine ⟨by simp [getContext, hget, OpResult.store],
        fun _ => by simp [updateContext, hget, OpResult.store],
        fun st2 h => ?_, hcreate, hcreate2, hend, hend2⟩
      simp [updateContext, hget] at h
    · cases hparse : parseContext data with
      | none =>
        refine ⟨by simp [getContext, hget, if_neg hdat, hparse, OpResult.store],
          fun _ => by simp [updateContext, hget, if_neg hdat, hparse, OpResult.store],
          fun st2 h => ?_, hcreate, hcreate2, hend, hend2⟩
        simp [updateContext, hget, if_neg hdat, hparse] at h
      | some ctx =>
        refine ⟨?_, fun hk => ?_, fun st2 h => ?_, hcreate, hcreate2, hend, hend2⟩
        · by_cases hk : k = getContextKey d s
          · subst hk
            simp [getContext, hget, if_neg hdat, hparse, OpResult.store, historyAt,
              Store.get_set_self, parseContext_serializeContext]
          · simp [getContext, hget, if_neg hdat, hparse, OpResult.store, historyAt,
              Store.get_set_ne _ _ _ _ hk]
        · simp [updateContext, hget, if_neg hdat, hparse, OpResult.store, historyAt,
            Store.get_set_ne _ _ _ _ hk]
        · simp only [updateContext, hget, if_neg hdat, hparse] at h
          injection h with _ h2
          subst h2
          refine ⟨ctx.history, by simp [historyAt, hget, hparse], ?_⟩
          simp [historyAt, Store.get_set_self, parseContext_serializeContext]

/-- SessionContext of the C6 witness scenario before the update. -/
def c6wCtx : SessionContext := ⟨"d", [], ⟨"t1", "t1"⟩⟩

/-- Store of the C6 witness scenario before the update. -/
def c6wStore : Store := Store.empty.set (getContextKey "d" "s") (serializeContext c6wCtx)

/-- Witness for C6 (amended) at a concrete successful updateContext. -/
theorem claim6_witness :
    ∃ h, historyAt c6wStore (getContextKey "d" "s") = some h
       ∧ historyAt (c6wStore.set (getContextKey "d" "s")
           (serializeContext ⟨"d", [⟨"t2", "x"⟩], ⟨"t1", "t2"⟩⟩)) (getContextKey "d" "s") =
           some (h ++ [⟨"t2", "x"⟩]) :=
  (claim6_append_only c6wStore "d" "s" "x" "t2" (getContextKey "d" "s")).2.2.1
    (c6wStore.set (getContextKey "d" "s") (serializeContext ⟨"d", [⟨"t2", "x"⟩], ⟨"t1", "t2"⟩⟩))
    (updateContext_of_stored c6wStore "d" "s" "x" "t2" c6wCtx (Store.get_set_self ..))

/-- C8: the claim expects an unknown tool name to surface as a
    method-not-found error and a missing or wrong-typed argument as an
    invalid-params error.  In the code the entire switch sits inside a try
    whose catch re-wraps every thrown error — including the
    McpError(MethodNotFound) and McpError(InvalidParams) values the switch
    itself constructs — into McpError(InternalError, error.message), so the
    RPC caller observes InternalError in both cases; only the missing /
    non-object argument-mapping check, which sits before the try, still
    surfaces as InvalidParams.  This theorem evaluates the handler at the
    failing inputs. -/
theorem claim8_error_code_clobbered :
    handleCallTool Store.empty "bogus_tool" (some []) "sid" "t" =
      .rpcError .internalError "Unknown tool: bogus_tool" Store.empty
    ∧ handleCallTool Store.empty "create_session" (some []) "sid" "t" =
      .rpcError .internalError "Invalid directory parameter" Store.empty
    ∧ handleCallTool Store.empty "create_session"
        (some [("directory", .nonStr)]) "sid" "t" =
      .rpcError .internalError "Invalid directory parameter" Store.empty
    ∧ handleCallTool Store.empty "get_context" (some [("directory", .str "d")]) "sid" "t" =
      .rpcError .internalError "Invalid directory or sessionId parameter" Store.empty
    ∧ handleCallTool Store.empty "get_context" none "sid" "t" =
      .rpcError .invalidParams "Invalid arguments" Store.empty := by
  refine ⟨rfl, rfl, rfl, rfl, rfl⟩
